import Mathlib

/-!
Verification of the statistical insight engine of the document-management
server (`server/src/controllers/aiInsightsController.js`, class `AIInsights`).

Modelling conventions:
* JavaScript numbers are modelled as exact rationals (`ℚ`) wherever the code
  works with finite values; where the code can produce `NaN` / `Infinity`
  (unguarded division), the value is modelled by the type `JSNum`
  (`fin q | nan | inf | ninf`) with IEEE-style propagation rules.
* `Math.sqrt` only occurs inside comparisons of the form
  `|dev| / Math.sqrt v > t` or `|dev| > k * Math.sqrt v`.  Those Boolean
  conditions are embedded algebraically (squaring both sides, with the
  degenerate `v = 0` / non-finite cases spelled out to match JavaScript
  semantics exactly), so the development stays inside `ℚ` and executable.
* A record (a row passed into the analyzers) is `Option Rec`: `none` models a
  malformed/null row; any JavaScript property access on `null` throws, which
  is modelled by the `Bool` "threw" component of each analyzer's result.
* Analyzers mutate the shared `insights` object in the source; here each
  analyzer maps a `Report` to `Report × Bool` where the `Bool` records whether
  an exception escaped the analyzer.  Entries pushed before a throw are kept,
  as they are in the mutable JavaScript object.
-/

/-- A JavaScript number: a finite value (kept exact as a rational), `NaN`,
`Infinity` or `-Infinity`. -/
inductive JSNum where
  | fin (q : ℚ)
  | nan
  | inf
  | ninf
deriving DecidableEq, Repr

namespace JSNum

/-- JavaScript addition. -/
def add : JSNum → JSNum → JSNum
  | fin a, fin b => fin (a + b)
  | nan, _ => nan
  | _, nan => nan
  | inf, ninf => nan
  | ninf, inf => nan
  | inf, _ => inf
  | _, inf => inf
  | ninf, _ => ninf
  | _, ninf => ninf

/-- JavaScript negation. -/
def neg : JSNum → JSNum
  | fin a => fin (-a)
  | nan => nan
  | inf => ninf
  | ninf => inf

/-- JavaScript subtraction. -/
def sub (a b : JSNum) : JSNum := add a (neg b)

/-- JavaScript multiplication (note `0 * Infinity = NaN`). -/
def mul : JSNum → JSNum → JSNum
  | fin a, fin b => fin (a * b)
  | nan, _ => nan
  | _, nan => nan
  | inf, inf => inf
  | inf, ninf => ninf
  | ninf, inf => ninf
  | ninf, ninf => inf
  | fin a, inf => if a = 0 then nan else if 0 < a then inf else ninf
  | fin a, ninf => if a = 0 then nan else if 0 < a then ninf else inf
  | inf, fin b => if b = 0 then nan else if 0 < b then inf else ninf
  | ninf, fin b => if b = 0 then nan else if 0 < b then ninf else inf

/-- JavaScript division (note `x/0` is `NaN` for `x = 0` and signed infinity
otherwise; `x / Infinity = 0` for finite `x`). -/
def div : JSNum → JSNum → JSNum
  | fin a, fin b =>
      if b = 0 then (if a = 0 then nan else if 0 < a then inf else ninf)
      else fin (a / b)
  | nan, _ => nan
  | _, nan => nan
  | inf, inf => nan
  | inf, ninf => nan
  | ninf, inf => nan
  | ninf, ninf => nan
  | inf, fin b => if 0 ≤ b then inf else ninf
  | ninf, fin b => if 0 ≤ b then ninf else inf
  | fin _, inf => fin 0
  | fin _, ninf => fin 0

/-- JavaScript comparison `x > t` against a finite rational `t`
(`NaN > t` is `false`). -/
def gtQ : JSNum → ℚ → Bool
  | fin a, t => decide (t < a)
  | nan, _ => false
  | inf, _ => true
  | ninf, _ => false

/-- Sum of a list of JavaScript numbers (the `reduce((a,b) => a+b, 0)`
idiom). -/
def sumList (l : List JSNum) : JSNum := l.foldl add (fin 0)

/-- `x` is a finite number. -/
def isFinite : JSNum → Prop
  | fin _ => True
  | _ => False

instance : DecidablePred isFinite := by
  intro x; cases x <;> simp [isFinite] <;> infer_instance

end JSNum

/-- The JavaScript condition `Math.abs(dev) > k * Math.sqrt v` for a finite
deviation `dev`, a fixed non-negative scale `k` and a (possibly non-finite)
variance `v`, embedded without square roots.  Case analysis mirrors IEEE
semantics: `sqrt` of a negative or `NaN` value is `NaN` and every comparison
with `NaN` is false; `k * sqrt Infinity = Infinity` exceeds no finite value;
for finite `v ≥ 0` and `k ≥ 0`, `|dev| > k·√v ↔ dev² > k²·v`. -/
def absGtSqrtScaled (dev : JSNum) (k : ℚ) (v : JSNum) : Bool :=
  match dev, v with
  | _, JSNum.nan => false
  | _, JSNum.inf => false
  | _, JSNum.ninf => false
  | JSNum.nan, _ => false
  | JSNum.inf, JSNum.fin w => decide (0 ≤ w)
  | JSNum.ninf, JSNum.fin w => decide (0 ≤ w)
  | JSNum.fin d, JSNum.fin w => decide (0 ≤ w) && decide (k ^ 2 * w < d ^ 2)

/-!  ## Numeric primitives (§ "class AIInsights", pure static methods) -/

/-- The ordinary-least-squares slope computed by `detectTrend`:
`x = [0, …, n-1]`, `slope = (n·ΣXY − ΣX·ΣY) / (n·ΣX² − (ΣX)²)`. -/
def olsSlope (data : List ℚ) : ℚ :=
  let n : ℚ := data.length
  let x : List ℚ := (List.range data.length).map (fun i => (i : ℚ))
  let sumX := x.sum
  let sumY := data.sum
  let sumXY := ((x.zip data).map (fun p => p.1 * p.2)).sum
  let sumX2 := (x.map (fun xi => xi * xi)).sum
  (n * sumXY - sumX * sumY) / (n * sumX2 - sumX * sumX)

/-- `AIInsights.detectTrend`: linear-regression trend classification. -/
def detectTrend (data : List ℚ) : String :=
  if data.length < 2 then "insufficient data"
  else if (1 : ℚ)/10 < olsSlope data then "increasing"
  else if olsSlope data < -(1/10 : ℚ) then "decreasing"
  else "stable"

/-- An anomaly found by `detectAnomalies`.  The source also stores
`zScore = |value − mean| / stdDev`; that field is omitted here because it is
irrational in general and no verified property depends on its numeric value
(conditions on it are embedded in `zScoreExceeds`). -/
structure Anomaly where
  index : ℕ
  value : ℚ
deriving DecidableEq, Repr

/-- The JavaScript condition `Math.abs((value - mean) / stdDev) > threshold`
with `stdDev = Math.sqrt variance`, embedded without square roots:
* `variance = 0`, `dev = 0`: `zScore = 0/0 = NaN`, and `NaN > t` is false;
* `variance = 0`, `dev ≠ 0`: `zScore = Infinity`, which exceeds any finite `t`;
* `variance > 0`, `t < 0`: `zScore ≥ 0 > t` always holds;
* `variance > 0`, `t ≥ 0`: `|dev|/√variance > t ↔ dev² > t²·variance`.
The variance passed by `anomalyScan` is a mean of squares, hence never
negative. -/
def zScoreExceeds (dev variance threshold : ℚ) : Bool :=
  if variance = 0 then dev != 0
  else decide (threshold < 0) || decide (threshold ^ 2 * variance < dev ^ 2)

/-- The body of `detectAnomalies` past the length guard: population mean and
variance, then one `Anomaly` per value whose z-score exceeds the threshold. -/
def anomalyScan (data : List ℚ) (threshold : ℚ) : List Anomaly :=
  let n : ℚ := data.length
  let mean := data.sum / n
  let variance := ((data.map (fun v => (v - mean) ^ 2)).sum) / n
  data.enum.filterMap (fun p =>
    if zScoreExceeds (p.2 - mean) variance threshold then some ⟨p.1, p.2⟩
    else none)

/-- `AIInsights.detectAnomalies(data, threshold)`. -/
def detectAnomalies (data : List ℚ) (threshold : ℚ) : List Anomaly :=
  if data.length < 3 then [] else anomalyScan data threshold

/-- Final value of the exponentially smoothed sequence of `predictNext`:
`smoothed[0] = data[0]`, `smoothed[i] = alpha·data[i] + (1−alpha)·smoothed[i−1]`.
The `0` default is unreachable: the caller guards `data.length ≥ 2`. -/
def expSmoothLast (data : List ℚ) (alpha : ℚ) : ℚ :=
  match data with
  | [] => 0
  | d0 :: rest => rest.foldl (fun lastSmooth x => alpha * x + (1 - alpha) * lastSmooth) d0

/-- The prediction loop of `predictNext`: pushes `next`, then updates
`next := alpha*next + (1-alpha)*next` ("simple trend continuation"). -/
def predIter (alpha : ℚ) (next : ℚ) : ℕ → List ℚ
  | 0 => []
  | k + 1 => next :: predIter alpha (alpha * next + (1 - alpha) * next) k

/-- `AIInsights.predictNext(data, periods, alpha)`; returns `null` (`none`)
when fewer than two data points are supplied. -/
def predictNext (data : List ℚ) (periods : ℕ) (alpha : ℚ) : Option (List ℚ) :=
  if data.length < 2 then none
  else some (predIter alpha (expSmoothLast data alpha) periods)

/-- Each step of the prediction loop leaves `next` unchanged, because
`alpha·x + (1−alpha)·x = x`; hence the loop emits the same value `periods`
times. -/
theorem predIter_eq_replicate (alpha x : ℚ) (k : ℕ) :
    predIter alpha x k = List.replicate k x := by
  induction k generalizing x with
  | zero => rfl
  | succ n ih =>
      rw [predIter, List.replicate, show alpha * x + (1 - alpha) * x = x by ring, ih]

/-- C3: for any input of length ≥ 2, any `alpha` and any `periods ≥ 1`,
`predictNext` returns a list of `periods` values all equal to the final value
of the exponentially smoothed sequence. -/
theorem C3_predictNext_repeats_final_smoothed
    (data : List ℚ) (periods : ℕ) (alpha : ℚ)
    (h2 : 2 ≤ data.length) (hp : 1 ≤ periods) :
    ∃ l, predictNext data periods alpha = some l ∧ l.length = periods ∧
      ∀ v ∈ l, v = expSmoothLast data alpha := by
  refine ⟨List.replicate periods (expSmoothLast data alpha), ?_, by simp, ?_⟩
  · rw [predictNext, if_neg (by omega), predIter_eq_replicate]
  · intro v hv
    exact List.eq_of_mem_replicate hv

/-- Witness for C3: the spec's concrete case `[10, 20]`, `alpha = 0.3`,
`periods = 2` — the final smoothed value is `13` and both predictions are
`13`. -/
theorem C3_witness :
    expSmoothLast [10, 20] (3/10) = 13 ∧
    predictNext [10, 20] 2 (3/10) = some [13, 13] := by
  have hsm : expSmoothLast [10, 20] (3/10) = 13 := by
    norm_num [expSmoothLast]
  refine ⟨hsm, ?_⟩
  obtain ⟨l, hl, hlen, hall⟩ :=
    C3_predictNext_repeats_final_smoothed [10, 20] 2 (3/10) (by norm_num) (by norm_num)
  rw [hl]
  congr 1
  have : ∀ v ∈ l, v = (13 : ℚ) := by
    intro v hv; rw [hall v hv, hsm]
  match l, hlen, this with
  | [a, b], _, h => rw [h a (by simp), h b (by simp)]

/-- C4 fails on the code: on `[10,10,10,10,100]` with threshold 2 the mean is
28, the population standard deviation is 36 and the z-score of index 4 is
exactly `72/36 = 2`; the comparison `zScore > threshold` is strict, so no
anomaly is reported at all (the claim asserts exactly one anomaly at
index 4). -/
theorem C4_counterexample : detectAnomalies [10, 10, 10, 10, 100] 2 = [] := by
  norm_num [detectAnomalies, anomalyScan, zScoreExceeds, List.enum,
    List.enumFrom, List.filterMap_cons]

/-- C4 (amended): `[10,10,10,10,100]` at threshold 2 yields no anomaly (the
z-score at index 4 equals the threshold exactly and inclusion is strict);
inputs shorter than 3 return `[]`; length-3 inputs do run the z-score scan
rather than short-circuiting (e.g. `[0,0,3]` at threshold 1 reports the
index-2 point). -/
theorem C4_detectAnomalies_amended :
    detectAnomalies [10, 10, 10, 10, 100] 2 = [] ∧
    (∀ (data : List ℚ) (t : ℚ), data.length < 3 → detectAnomalies data t = []) ∧
    (∀ t : ℚ, detectAnomalies [1, 2, 3] t = anomalyScan [1, 2, 3] t) ∧
    detectAnomalies [0, 0, 3] 1 = [⟨2, 3⟩] := by
  refine ⟨?_, ?_, ?_, ?_⟩
  · norm_num [detectAnomalies, anomalyScan, zScoreExceeds, List.enum,
      List.enumFrom, List.filterMap_cons]
  · intro data t h
    rw [detectAnomalies, if_pos h]
  · intro t
    rw [detectAnomalies, if_neg (by norm_num)]
  · norm_num [detectAnomalies, anomalyScan, zScoreExceeds, List.enum,
      List.enumFrom, List.filterMap_cons]

/-- Witness for C4 (amended), instantiating the quantified conjuncts at
`[1, 2]` (length 2 short-circuits) and threshold 2 for the length-3 case. -/
theorem C4_witness :
    detectAnomalies [1, 2] 2 = [] ∧
    detectAnomalies [1, 2, 3] 2 = anomalyScan [1, 2, 3] 2 :=
  ⟨C4_detectAnomalies_amended.2.1 [1, 2] 2 (by norm_num),
   C4_detectAnomalies_amended.2.2.1 2⟩

/-- C6: `detectTrend` returns "insufficient data" below 2 points, otherwise
classifies the least-squares slope against the ±0.1 cutoffs; the four
concrete cases of the spec hold. -/
theorem C6_detectTrend_classification :
    (∀ data : List ℚ, data.length < 2 → detectTrend data = "insufficient data") ∧
    (∀ data : List ℚ, 2 ≤ data.length →
      detectTrend data =
        if (1 : ℚ)/10 < olsSlope data then "increasing"
        else if olsSlope data < -(1/10 : ℚ) then "decreasing"
        else "stable") ∧
    detectTrend [1, 2, 3, 4, 5] = "increasing" ∧
    detectTrend [5, 4, 3, 2, 1] = "decreasing" ∧
    detectTrend [3, 3, 3, 3] = "stable" ∧
    detectTrend [1] = "insufficient data" := by
  refine ⟨?_, ?_, ?_, ?_, ?_, ?_⟩
  · intro data h; rw [detectTrend, if_pos h]
  · intro data h; rw [detectTrend, if_neg (by omega)]
  · norm_num [detectTrend, olsSlope, List.range_succ]
  · norm_num [detectTrend, olsSlope, List.range_succ]
  · norm_num [detectTrend, olsSlope, List.range_succ]
  · norm_num [detectTrend]

/-- Witness for C6, instantiating the quantified conjuncts: `[1]` is too
short, and for `[1,2,3,4,5]` the slope is 1 so the classification branch
returns "increasing". -/
theorem C6_witness :
    detectTrend [1] = "insufficient data" ∧
    detectTrend [1, 2, 3, 4, 5] =
      (if (1 : ℚ)/10 < olsSlope [1, 2, 3, 4, 5] then "increasing"
       else if olsSlope [1, 2, 3, 4, 5] < -(1/10 : ℚ) then "decreasing"
       else "stable") :=
  ⟨C6_detectTrend_classification.1 [1] (by norm_num),
   C6_detectTrend_classification.2.1 [1, 2, 3, 4, 5] (by norm_num)⟩

/-- C9: on a constant series of length ≥ 3 the variance is zero and every
deviation is zero, so every z-score is `0/0 = NaN`, which exceeds no
threshold: `detectAnomalies` returns `[]` with no explicit zero-variance
guard. -/
theorem C9_constant_series_no_anomalies (n : ℕ) (c t : ℚ) (h : 3 ≤ n) :
    detectAnomalies (List.replicate n c) t = [] := by
  rw [detectAnomalies, if_neg (by simp; omega)]
  rw [anomalyScan]
  have hmean : (List.replicate n c).sum / ((List.replicate n c).length : ℚ) = c := by
    have hn : ((n : ℚ)) ≠ 0 := Nat.cast_ne_zero.mpr (by omega)
    rw [List.sum_replicate, List.length_replicate, nsmul_eq_mul, mul_comm,
      mul_div_assoc, div_self hn, mul_one]
  rw [hmean]
  have hmap : (List.replicate n c).map (fun v => (v - c) ^ 2) = List.replicate n 0 := by
    rw [List.map_replicate]; norm_num
  rw [hmap]
  have hvar : (List.replicate n (0 : ℚ)).sum / ((List.replicate n c).length : ℚ) = 0 := by
    rw [List.sum_replicate, smul_zero, zero_div]
  rw [hvar]
  refine List.filterMap_eq_nil_iff.mpr ?_
  intro p hp
  have hval : p.2 = c := by
    obtain ⟨hi, hx⟩ := List.mem_enum hp
    rw [hx, List.getElem_replicate]
  rw [hval]
  simp [zScoreExceeds]

/-- Witness for C9 at `n = 3`, `c = 5`, threshold 2. -/
theorem C9_witness : detectAnomalies (List.replicate 3 (5 : ℚ)) 2 = [] :=
  C9_constant_series_no_anomalies 3 5 2 (by norm_num)

/-!  ## Data model

A database row passed into the analyzers.  The date is modelled by the two
projections the code extracts from it (`new Date(doc.date).getDay()` and
`.getMonth()`); every combination of weekday and month is realised by real
dates, so nothing is lost.  Numeric columns are modelled as (finite)
rationals — the claims under verification assume finite numeric amount/vat
fields.  `approval_history` is modelled post-`JSON.parse` as the list of its
steps' `created_at` timestamps (milliseconds). -/
structure Rec where
  dow : Fin 7
  month : Fin 12
  amount : ℚ := 0
  vat : ℚ := 0
  vendor_name : String := ""
  invoice_number : String := ""
  total_amount : ℚ := 0
  approved_count : ℚ := 0
  rejected_count : ℚ := 0
  document_count : ℚ := 0
  document_status : String := ""
  pending_steps : ℚ := 0
  current_step : ℕ := 0
  history : Option (List ℚ) := none
deriving DecidableEq, Repr

/-- One insight entry.  `etype` is the source's `type` tag.  Numeric payload
fields (`data.months`, `values`, `value`, `data.total/count`, anomaly detail
amounts) are collected in `value` / `numData`; string payloads (vendor
names, invoice numbers, month labels, bottleneck description) in `info`.
The human-readable `message` strings are not modelled: no verified property
depends on them. -/
structure Entry where
  etype : String
  confidence : Option String := none
  severity : Option String := none
  value : Option JSNum := none
  numData : List JSNum := []
  info : List String := []
deriving DecidableEq, Repr

/-- The `insights` object: six category-keyed entry lists. -/
structure Report where
  trends : List Entry := []
  anomalies : List Entry := []
  predictions : List Entry := []
  recommendations : List Entry := []
  patterns : List Entry := []
  risks : List Entry := []
deriving DecidableEq, Repr

def emptyReport : Report := {}

def pushTrend (r : Report) (e : Entry) : Report := { r with trends := r.trends ++ [e] }
def pushAnomaly (r : Report) (e : Entry) : Report := { r with anomalies := r.anomalies ++ [e] }
def pushPrediction (r : Report) (e : Entry) : Report := { r with predictions := r.predictions ++ [e] }
def pushPattern (r : Report) (e : Entry) : Report := { r with patterns := r.patterns ++ [e] }
def pushRisk (r : Report) (e : Entry) : Report := { r with risks := r.risks ++ [e] }

/-- The precomputed summary handed to the analyzers.  JavaScript objects are
modelled by the lists of the values the code reads from them, in key order:
`byMonth` is `Object.values(summary.byMonth).map(m => m.amount)`, `byVendor`
is the per-vendor `amount` values, `byQuarterVats` the per-quarter `vat`
values. -/
structure Summary where
  byMonth : List ℚ := []
  byVendor : List ℚ := []
  byQuarterVats : List ℚ := []
  totalAmount : ℚ := 0
deriving DecidableEq, Repr

/-- Sort a list of rationals in descending order (`.sort((a, b) => b - a)`). -/
def sortDescQ (l : List ℚ) : List ℚ := l.mergeSort (fun a b => decide (b ≤ a))

/-!  ## Report-Type Analyzers

Each analyzer returns `Report × Bool`: the report after all pushes that
happened before the analyzer returned or threw, and whether it threw. -/

/-- The monthly-series section of `generateSpendInsights`: trend entry,
spike-anomaly entry and 3-period forecast entry, when at least two monthly
totals are available. -/
def spendMonthlyStep (s : Summary) (r : Report) : Report :=
  let monthlyAmounts := s.byMonth.reverse
  if 2 ≤ monthlyAmounts.length then
      let ra := pushTrend r
        { etype := "spending_trend"
          confidence := some (if 6 ≤ monthlyAmounts.length then "high" else "medium")
          info := [detectTrend monthlyAmounts]
          numData := [JSNum.fin monthlyAmounts.length] }
      let anomalies := detectAnomalies monthlyAmounts 2
      let rb :=
        if anomalies.length > 0 then
          pushAnomaly ra
            { etype := "spike_detected"
              severity := some (if 2 < anomalies.length then "high" else "medium")
              info := anomalies.map
                (fun a => "Month -" ++ toString (monthlyAmounts.length - 1 - a.index)) }
        else ra
      match predictNext monthlyAmounts 3 (3/10) with
      | some preds =>
          pushPrediction rb
            { etype := "spending_forecast"
              confidence := some (if 6 ≤ monthlyAmounts.length then "high" else "medium")
              numData := preds.map JSNum.fin }
      | none => rb
  else r

/-- `generateSpendInsights(data, summary, insights)`.  It only reads the
precomputed summary, never the record list, and cannot throw. -/
def generateSpendInsights (s : Summary) (r : Report) : Report :=
  let r1 := spendMonthlyStep s r
  let vendorConcentration := sortDescQ s.byVendor
  if vendorConcentration.length > 0 then
    let topVendorShare :=
      JSNum.mul (JSNum.div (JSNum.fin vendorConcentration.headI) (JSNum.fin s.totalAmount))
        (JSNum.fin 100)
    if JSNum.gtQ topVendorShare 50 then
      pushRisk r1 { etype := "concentration_risk", severity := some "high" }
    else r1
  else r1

/-- Body of `generateVendorInsights` past the point where every row has been
dereferenced successfully.  `parseFloat(v.total_amount || 0)` is the identity
on our ℚ-typed column (`0 || 0` is `0`); `avgPerVendor` and the variance are
JS numbers because the vendor count may be zero (`0/0 = NaN`).  The source
compares `Math.abs(amount - avg) > 2 * stdDev` with
`stdDev = Math.sqrt(variance)`; `absGtSqrtScaled` embeds that comparison. -/
def vendorInsightsPure (data : List Rec) (r : Report) : Report :=
  let vendorCount := data.length
  let amounts := data.map (fun v => v.total_amount)
  let avgPerVendor := JSNum.div (JSNum.fin amounts.sum) (JSNum.fin vendorCount)
  let variance := JSNum.div
    (JSNum.sumList (amounts.map (fun x =>
      JSNum.mul (JSNum.sub (JSNum.fin x) avgPerVendor) (JSNum.sub (JSNum.fin x) avgPerVendor))))
    (JSNum.fin vendorCount)
  let unusualVendors := data.filter (fun v =>
    absGtSqrtScaled (JSNum.sub (JSNum.fin v.total_amount) avgPerVendor) 2 variance)
  let r1 :=
    if unusualVendors.length > 0 then
      pushAnomaly r
        { etype := "unusual_vendors"
          severity := some (if 3 < unusualVendors.length then "high" else "medium")
          info := unusualVendors.map (fun v => v.vendor_name) }
    else r
  let growingVendors := data.filter (fun v =>
    let total := v.approved_count + v.rejected_count
    decide (0 < total) && decide ((8 : ℚ)/10 < v.approved_count / total) &&
      decide (5 < v.approved_count))
  let r2 :=
    if growingVendors.length > 0 then
      pushTrend r1
        { etype := "growing_vendors", confidence := some "high"
          info := growingVendors.map (fun v => v.vendor_name) }
    else r1
  let highRiskVendors := data.filter (fun v =>
    -- `parseFloat(v.document_count || 1)`: a zero count is falsy and becomes 1
    let total := if v.document_count = 0 then 1 else v.document_count
    decide ((3 : ℚ)/10 < v.rejected_count / total))
  if highRiskVendors.length > 0 then
    pushRisk r2
      { etype := "vendor_risk", severity := some "high"
        info := highRiskVendors.map (fun v => v.vendor_name) }
  else r2

/-- `generateVendorInsights(data, insights)`: the first statement maps
`v => parseFloat(v.total_amount || 0)` over the rows, so a null row throws
before anything is pushed. -/
def generateVendorInsights (data : List (Option Rec)) (r : Report) : Report × Bool :=
  if data.any (fun x => x.isNone) then (r, true)
  else (vendorInsightsPure (data.filterMap id) r, false)

/-- Body of `generateTaxInsights` past the null checks.  A per-document rate
`(vat / amount) * 100` is a JS number (`amount = 0` gives `Infinity`/`NaN`),
and so are the mean rate and its variance; the `> 2 * stdDev` filter is
embedded by `absGtSqrtScaled`.  For the quarterly part, `quarters[i]?.vat || 0`
is the list value itself and the growth denominator `(prev?.vat || 1)`
substitutes 1 for a zero previous-quarter VAT. -/
def taxInsightsPure (data : List Rec) (s : Summary) (r : Report) : Report :=
  let rateOf := fun (d : Rec) =>
    JSNum.mul (JSNum.div (JSNum.fin d.vat) (JSNum.fin d.amount)) (JSNum.fin 100)
  let taxRates : List JSNum := data.map rateOf
  let avgTaxRate := JSNum.div (JSNum.sumList taxRates) (JSNum.fin taxRates.length)
  let variance := JSNum.div
    (JSNum.sumList (taxRates.map (fun rate =>
      JSNum.mul (JSNum.sub rate avgTaxRate) (JSNum.sub rate avgTaxRate))))
    (JSNum.fin taxRates.length)
  let inconsistentTaxDocs := data.filter (fun d =>
    absGtSqrtScaled (JSNum.sub (rateOf d) avgTaxRate) 2 variance)
  let r1 :=
    if inconsistentTaxDocs.length > 0 then
      pushAnomaly r
        { etype := "tax_inconsistency"
          severity := some (if 5 < inconsistentTaxDocs.length then "high" else "medium")
          info := inconsistentTaxDocs.map (fun d => d.invoice_number) }
    else r
  let quarters := s.byQuarterVats
  if 2 ≤ quarters.length then
    let lastQ := quarters.getD (quarters.length - 1) 0
    let prevQ := quarters.getD (quarters.length - 2) 0
    let growth := (lastQ - prevQ) / (if prevQ = 0 then 1 else prevQ) * 100
    let r2 := pushTrend r1
      { etype := "tax_growth", confidence := some "high"
        value := some (JSNum.fin growth) }
    match predictNext quarters 1 (3/10) with
    | some preds =>
        let nextVat := preds.headI
        -- `if (nextVat)`: a zero forecast is falsy and is not pushed
        if nextVat ≠ 0 then
          pushPrediction r2
            { etype := "tax_forecast"
              confidence := some (if 4 ≤ quarters.length then "high" else "medium")
              value := some (JSNum.fin nextVat) }
        else r2
    | none => r2
  else r1

/-- `generateTaxInsights(data, summary, insights)`: the first statement maps
`d => parseFloat(d.amount)` over the rows, so a null row throws before
anything is pushed. -/
def generateTaxInsights (data : List (Option Rec)) (s : Summary) (r : Report) :
    Report × Bool :=
  if data.any (fun x => x.isNone) then (r, true)
  else (taxInsightsPure (data.filterMap id) s r, false)

/-- Body of `generateApprovalInsights` past the null checks.  The summary
parameter of the source is never read and is omitted.  `approval_history` is
modelled post-parse as the list of step timestamps; the source's
`firstStep?.created_at && lastStep?.created_at` guard corresponds to the
non-emptiness check, and the per-document elapsed time is
`(last - first) / (1000*60*60*24)` days. -/
def approvalInsightsPure (data : List Rec) (r : Report) : Report :=
  let totalDocs := data.length
  let approved := (data.filter (fun d => d.document_status == "approved")).length
  let rejected := (data.filter (fun d => d.document_status == "rejected")).length
  let approvalRate : ℚ := if 0 < totalDocs then ((approved : ℚ) / (totalDocs : ℚ)) * 100 else 0
  let rejectionRate : ℚ := if 0 < totalDocs then ((rejected : ℚ) / (totalDocs : ℚ)) * 100 else 0
  let r1 := pushTrend r
    { etype := "approval_efficiency", confidence := some "high"
      numData := [JSNum.fin approvalRate, JSNum.fin rejectionRate] }
  let stuckDocs := data.filter (fun d =>
    d.document_status == "pending" && decide (0 < d.pending_steps))
  let r2 :=
    if 0 < stuckDocs.length then
      -- `d.current_step || 1`: a zero (or missing) step is falsy and becomes 1
      let stepOf := fun (d : Rec) => if d.current_step = 0 then 1 else d.current_step
      -- `Object.entries(stepsStuck)`: integer-like keys iterate in ascending order
      let stepKeys := ((stuckDocs.map stepOf).dedup).mergeSort (fun a b => decide (a ≤ b))
      let stepPairs := stepKeys.map (fun k =>
        (k, (stuckDocs.filter (fun d => stepOf d = k)).length))
      let bottleneckStep := (stepPairs.mergeSort (fun a b => decide (b.2 ≤ a.2))).headI
      pushRisk r1
        { etype := "approval_bottleneck"
          severity := some (if 10 < stuckDocs.length then "high" else "medium")
          info := ["Step " ++ toString bottleneckStep.1] }
    else r1
  let approvalTimes : List ℚ := data.filterMap (fun d =>
    match d.history with
    | some ts => if 0 < ts.length then some ((ts.getLastD 0 - ts.headI) / 86400000) else none
    | none => none)
  if 0 < approvalTimes.length then
    pushPrediction r2
      { etype := "approval_time"
        confidence := some (if 10 < approvalTimes.length then "high" else "medium")
        value := some (JSNum.fin (approvalTimes.sum / (approvalTimes.length : ℚ))) }
  else r2

/-- `generateApprovalInsights(data, summary, insights)`: the first statement
filters on `d.document_status`, so a null row throws before anything is
pushed. -/
def generateApprovalInsights (data : List (Option Rec)) (r : Report) : Report × Bool :=
  if data.any (fun x => x.isNone) then (r, true)
  else (approvalInsightsPure (data.filterMap id) r, false)

/-!  ## Cross-Cutting Analyzer -/

/-- Number of records whose date falls on weekday `k`. -/
def dowCount (docs : List Rec) (k : ℕ) : ℕ :=
  (docs.filter (fun d => d.dow.val == k)).length

/-- Total amount of the records whose date falls on weekday `k`. -/
def dowTotal (docs : List Rec) (k : ℕ) : ℚ :=
  ((docs.filter (fun d => d.dow.val == k)).map (fun d => d.amount)).sum

/-- Number of records whose date falls in calendar month `k`. -/
def monthCount (docs : List Rec) (k : ℕ) : ℕ :=
  (docs.filter (fun d => d.month.val == k)).length

/-- Total amount of the records whose date falls in calendar month `k`. -/
def monthTotal (docs : List Rec) (k : ℕ) : ℚ :=
  ((docs.filter (fun d => d.month.val == k)).map (fun d => d.amount)).sum

/-- One bucket of `analyzeTemporalPatterns` as seen through
`Object.entries`: the key plus its `{total, count}` accumulator. -/
structure Agg where
  key : ℕ
  total : ℚ
  count : ℕ
deriving DecidableEq, Repr

/-- `Object.entries(patterns.byDayOfWeek)`: integer-like keys iterate in
ascending order, and a key is present exactly when some record fell in the
bucket. -/
def dowEntries (docs : List Rec) : List Agg :=
  (List.range 7).filterMap (fun k =>
    if dowCount docs k = 0 then none else some ⟨k, dowTotal docs k, dowCount docs k⟩)

/-- `Object.entries(patterns.byMonth)`, analogously. -/
def monthEntries (docs : List Rec) : List Agg :=
  (List.range 12).filterMap (fun k =>
    if monthCount docs k = 0 then none else some ⟨k, monthTotal docs k, monthCount docs k⟩)

/-- The seasonal-pattern entry pushed for the busiest month `b`. -/
def seasonalPatternEntry (b : Agg) : Entry :=
  { etype := "seasonal_pattern", confidence := some "medium"
    numData := [JSNum.fin b.total, JSNum.fin (b.count : ℚ)] }

/-- The weekly-pattern entry (its message-only payload is not modelled). -/
def weeklyPatternEntry : Entry :=
  { etype := "weekly_pattern", confidence := some "high" }

/-- The amount-anomalies entry for the anomalies found in the amount
series. -/
def amountAnomalyEntry (anomalies : List Anomaly) : Entry :=
  { etype := "amount_anomalies"
    severity := some (if 3 < anomalies.length then "high" else "medium")
    numData := anomalies.map (fun a => JSNum.fin a.value) }

/-- Busiest-month step: `Object.entries(byMonth).sort((a,b) => b.total - a.total)[0]`,
pushed as a seasonal pattern when it exists. -/
def seasonalStep (docs : List Rec) (r : Report) : Report :=
  match (monthEntries docs).mergeSort (fun a b => decide (b.total ≤ a.total)) with
  | [] => r
  | b :: _ => pushPattern r (seasonalPatternEntry b)

/-- Weekday step: the two most active weekdays.  The guard only checks
`activeDays.length > 0`; building the message then reads
`activeDays[1][0]`, which throws when only one weekday bucket exists. -/
def weekdayStep (docs : List Rec) (r : Report) : Report × Bool :=
  let activeDays := ((dowEntries docs).mergeSort (fun a b => decide (b.count ≤ a.count))).take 2
  if 0 < activeDays.length then
    match activeDays[1]? with
    | none => (r, true)
    | some _ => (pushPattern r weeklyPatternEntry, false)
  else (r, false)

/-- Amount-distribution step: `detectAnomalies(amounts, 2.5)` whenever more
than 5 records are present (this sits outside the `length > 10` pattern
guard in the source). -/
def amountStep (docs : List Rec) (r : Report) : Report :=
  let amounts := docs.map (fun d => d.amount)
  if 5 < amounts.length then
    let anomalies := detectAnomalies amounts (5/2)
    if 0 < anomalies.length then pushAnomaly r (amountAnomalyEntry anomalies)
    else r
  else r

/-- Body of `generateCrossCuttingInsights` past the null checks: seasonal and
weekday patterns only when more than 10 records are present (an exception in
the weekday step propagates out of the function, skipping the amount step),
then the amount-anomaly step. -/
def crossCuttingPure (docs : List Rec) (r : Report) : Report × Bool :=
  if 10 < docs.length then
    let r1 := seasonalStep docs r
    match weekdayStep docs r1 with
    | (r2, true) => (r2, true)
    | (r2, false) => (amountStep docs r2, false)
  else (amountStep docs r, false)

/-- `generateCrossCuttingInsights(data, insights)`: both the temporal-pattern
loop and the amounts map dereference every row, and each runs before any push
it feeds, so a null row throws with the report unchanged. -/
def generateCrossCuttingInsights (data : List (Option Rec)) (r : Report) :
    Report × Bool :=
  if data.any (fun x => x.isNone) then (r, true)
  else crossCuttingPure (data.filterMap id) r

/-!  ## Insight Assembler (`generateRealInsights`) -/

/-- The `switch (reportType)` dispatch, on a fresh report. -/
def dispatch (reportType : String) (data : List (Option Rec)) (s : Summary)
    (r : Report) : Report × Bool :=
  if reportType = "spend-summary" then (generateSpendInsights s r, false)
  else if reportType = "vendor-analysis" then generateVendorInsights data r
  else if reportType = "tax-vat-report" then generateTaxInsights data s r
  else if reportType = "approval-status" then generateApprovalInsights data r
  else (r, false)

/-- The body of the `try` block: dispatch, then the cross-cutting analyzer.
An `Except.error` carries the report as populated at the moment the
exception was raised (the mutable `insights` object). -/
def runAnalysis (reportType : String) (data : List (Option Rec)) (s : Summary) :
    Except Report Report :=
  if (dispatch reportType data s emptyReport).2 then
    Except.error (dispatch reportType data s emptyReport).1
  else if (generateCrossCuttingInsights data
      (dispatch reportType data s emptyReport).1).2 then
    Except.error (generateCrossCuttingInsights data
      (dispatch reportType data s emptyReport).1).1
  else
    Except.ok (generateCrossCuttingInsights data
      (dispatch reportType data s emptyReport).1).1

/-- `AIInsights.generateRealInsights(reportType, data, summary)`: the whole
analysis is wrapped in `try { … } catch (error) { console.error(…) }` followed
by `return insights`, so an exception anywhere inside yields the partially
populated report instead of propagating. -/
def generateRealInsights (reportType : String) (data : List (Option Rec))
    (s : Summary) : Except String Report :=
  match runAnalysis reportType data s with
  | Except.ok r => Except.ok r
  | Except.error rep => Except.ok rep

/-!  ## Structural lemmas about the analyzers -/

/-- The monthly section of the spend analyzer never touches the risk list. -/
theorem spendMonthlyStep_risks (s : Summary) (r : Report) :
    (spendMonthlyStep s r).risks = r.risks := by
  rw [spendMonthlyStep]
  repeat' split
  all_goals simp [pushTrend, pushAnomaly, pushPrediction, apply_ite Report.risks]

/-- No report-type analyzer ever pushes a pattern entry: the spend analyzer. -/
theorem generateSpendInsights_patterns (s : Summary) (r : Report) :
    (generateSpendInsights s r).patterns = r.patterns := by
  rw [generateSpendInsights, spendMonthlyStep]
  repeat' split
  all_goals simp [pushTrend, pushAnomaly, pushPrediction, pushRisk, apply_ite Report.patterns]

/-- No report-type analyzer ever pushes a pattern entry: the vendor analyzer. -/
theorem generateVendorInsights_patterns (data : List (Option Rec)) (r : Report) :
    (generateVendorInsights data r).1.patterns = r.patterns := by
  rw [generateVendorInsights]
  split
  · rfl
  · show (vendorInsightsPure _ r).patterns = r.patterns
    rw [vendorInsightsPure]
    repeat' split
    all_goals simp [pushTrend, pushAnomaly, pushRisk, apply_ite Report.patterns]

/-- No report-type analyzer ever pushes a pattern entry: the tax analyzer. -/
theorem generateTaxInsights_patterns (data : List (Option Rec)) (s : Summary)
    (r : Report) : (generateTaxInsights data s r).1.patterns = r.patterns := by
  rw [generateTaxInsights]
  split
  · rfl
  · show (taxInsightsPure _ s r).patterns = r.patterns
    rw [taxInsightsPure]
    repeat' split
    all_goals simp [pushTrend, pushAnomaly, pushPrediction, apply_ite Report.patterns]

/-- No report-type analyzer ever pushes a pattern entry: the approval analyzer. -/
theorem generateApprovalInsights_patterns (data : List (Option Rec)) (r : Report) :
    (generateApprovalInsights data r).1.patterns = r.patterns := by
  rw [generateApprovalInsights]
  split
  · rfl
  · show (approvalInsightsPure _ r).patterns = r.patterns
    rw [approvalInsightsPure]
    repeat' split
    all_goals simp [pushTrend, pushRisk, pushPrediction, apply_ite Report.patterns]

/-- The dispatched analyzer leaves the (initially empty) pattern list empty,
whatever the report type. -/
theorem dispatch_patterns (rt : String) (data : List (Option Rec)) (s : Summary)
    (r : Report) : (dispatch rt data s r).1.patterns = r.patterns := by
  rw [dispatch]
  repeat' split
  · exact generateSpendInsights_patterns s r
  · exact generateVendorInsights_patterns data r
  · exact generateTaxInsights_patterns data s r
  · exact generateApprovalInsights_patterns data r
  · rfl

/-!  ## C1: the assembler catches every analyzer exception -/

/-- C1: for every report type, record list and summary, `generateRealInsights`
returns an `InsightReport` (the six-list structure) and never propagates an
exception; the report it returns is exactly the one populated at the moment
the `try` body finished or threw. -/
theorem C1_assembler_never_throws (rt : String) (data : List (Option Rec))
    (s : Summary) :
    ∃ r : Report, generateRealInsights rt data s = Except.ok r ∧
      (runAnalysis rt data s = Except.ok r ∨ runAnalysis rt data s = Except.error r) := by
  cases h : runAnalysis rt data s with
  | ok r => exact ⟨r, by rw [generateRealInsights, h], Or.inl rfl⟩
  | error r => exact ⟨r, by rw [generateRealInsights, h], Or.inr rfl⟩

/-!  ## C2: an analyzer exception skips the cross-cutting analyzer -/

/-- Eleven malformed (null) rows: every analyzer that dereferences its rows
throws on them. -/
def badData11 : List (Option Rec) := List.replicate 11 none

/-- An empty summary. -/
def sumEmpty : Summary := {}

/-- C2 fails on the code: with more than 10 records and a vendor analyzer
that throws, the cross-cutting analyzer does NOT run — the single `try`
block wraps both the dispatch and the cross-cutting call, so the exception
jumps straight to `catch` and the returned report has no pattern entries at
all (here the whole report is still empty). -/
theorem C2_counterexample :
    badData11.length = 11 ∧
    (generateVendorInsights badData11 emptyReport).2 = true ∧
    generateRealInsights "vendor-analysis" badData11 sumEmpty = Except.ok emptyReport ∧
    emptyReport.patterns = [] :=
  ⟨by decide, by decide, by rfl, rfl⟩

/-- C2 (amended): when the dispatched vendor analyzer throws, the exception
is caught at the assembler but the cross-cutting analyzer never runs: the
returned report is exactly the report accumulated before the throw, and it
contains no pattern entries. -/
theorem C2_amended_no_crosscutting_after_throw (data : List (Option Rec))
    (s : Summary) (hlen : 10 < data.length)
    (hthrow : (generateVendorInsights data emptyReport).2 = true) :
    generateRealInsights "vendor-analysis" data s
      = Except.ok (generateVendorInsights data emptyReport).1 ∧
    (generateVendorInsights data emptyReport).1.patterns = [] := by
  have hrun : runAnalysis "vendor-analysis" data s
      = Except.error (generateVendorInsights data emptyReport).1 := by
    rw [runAnalysis]
    have hd : dispatch "vendor-analysis" data s emptyReport
        = generateVendorInsights data emptyReport := by
      rfl
    rw [hd, if_pos hthrow]
  refine ⟨?_, ?_⟩
  · rw [generateRealInsights, hrun]
  · rw [generateVendorInsights_patterns]
    rfl

/-- Witness for C2 (amended) at the 11 malformed rows. -/
theorem C2_witness :
    generateRealInsights "vendor-analysis" badData11 sumEmpty
      = Except.ok (generateVendorInsights badData11 emptyReport).1 ∧
    (generateVendorInsights badData11 emptyReport).1.patterns = [] :=
  C2_amended_no_crosscutting_after_throw badData11 sumEmpty (by decide) (by decide)

/-!  ## Sorting facts for `.sort((a, b) => b - a)` -/

theorem sortDescQ_perm (l : List ℚ) : List.Perm (sortDescQ l) l := List.mergeSort_perm l _

theorem sortDescQ_ne_nil (l : List ℚ) (h : l ≠ []) : sortDescQ l ≠ [] := by
  intro h0
  apply h
  have hp := sortDescQ_perm l
  rw [h0] at hp
  exact (hp.symm).eq_nil

/-- The head of the descending sort is an element of the list … -/
theorem sortDescQ_headI_mem (l : List ℚ) (h : l ≠ []) : (sortDescQ l).headI ∈ l := by
  cases hs : sortDescQ l with
  | nil => exact absurd hs (sortDescQ_ne_nil l h)
  | cons a t =>
      have ha : a ∈ sortDescQ l := by rw [hs]; exact List.mem_cons_self a t
      simpa using (sortDescQ_perm l).mem_iff.mp ha

/-- … and it dominates every element: it is the top (maximal) value. -/
theorem sortDescQ_headI_ge (l : List ℚ) (x : ℚ) (hx : x ∈ l) :
    x ≤ (sortDescQ l).headI := by
  have hp := @List.sorted_mergeSort ℚ (fun a b : ℚ => decide (b ≤ a))
    (fun a b c hab hbc => by simp at *; linarith)
    (fun a b => by rcases le_total a b with h | h <;> simp [h]) l
  have hx2 : x ∈ sortDescQ l := (sortDescQ_perm l).mem_iff.mpr hx
  cases hs : sortDescQ l with
  | nil => rw [hs] at hx2; simp at hx2
  | cons a t =>
      rw [hs] at hx2
      rw [sortDescQ] at hs
      rw [hs] at hp
      rcases List.mem_cons.mp hx2 with rfl | ht
      · simp
      · have := (List.pairwise_cons.mp hp).1 x ht
        simp at this ⊢
        exact this

/-!  ## C7: the 50% concentration boundary is strict -/

/-- C7: the spend analyzer emits its (sole possible) risk entry — severity
"high", type `concentration_risk` — if and only if the top vendor's share of
total spend strictly exceeds 50%; the "top vendor" value is the head of the
descending sort, which is shown to be the maximal per-vendor amount. -/
theorem C7_concentration_strict_boundary (s : Summary)
    (hv : s.byVendor ≠ []) (ht : 0 < s.totalAmount) :
    ((generateSpendInsights s emptyReport).risks ≠ [] ↔
        50 < (sortDescQ s.byVendor).headI / s.totalAmount * 100) ∧
    (sortDescQ s.byVendor).headI ∈ s.byVendor ∧
    (∀ x ∈ s.byVendor, x ≤ (sortDescQ s.byVendor).headI) ∧
    (∀ e ∈ (generateSpendInsights s emptyReport).risks,
        e.etype = "concentration_risk" ∧ e.severity = some "high") := by
  have hlen : 0 < (sortDescQ s.byVendor).length := by
    rw [sortDescQ, List.length_mergeSort]
    exact List.length_pos.mpr hv
  have hne : s.totalAmount ≠ 0 := ne_of_gt ht
  have hrisks : (generateSpendInsights s emptyReport).risks
      = if 50 < (sortDescQ s.byVendor).headI / s.totalAmount * 100
        then [{ etype := "concentration_risk", severity := some "high" }] else [] := by
    rw [generateSpendInsights]
    rw [if_pos hlen]
    have hshare : JSNum.mul (JSNum.div (JSNum.fin (sortDescQ s.byVendor).headI)
        (JSNum.fin s.totalAmount)) (JSNum.fin 100)
        = JSNum.fin ((sortDescQ s.byVendor).headI / s.totalAmount * 100) := by
      simp [JSNum.div, JSNum.mul, hne]
    rw [hshare]
    simp only [JSNum.gtQ, decide_eq_true_eq]
    split_ifs with h
    · simp [pushRisk, spendMonthlyStep_risks, emptyReport]
    · simp [spendMonthlyStep_risks, emptyReport]
  refine ⟨?_, sortDescQ_headI_mem _ hv, fun x hx => sortDescQ_headI_ge _ x hx, ?_⟩
  · rw [hrisks]
    split_ifs with h <;> simp [h]
  · rw [hrisks]
    split_ifs with h <;> simp

/-- Summary where the top vendor holds exactly 50% of total spend. -/
def sumHalf : Summary := { byVendor := [50, 50], totalAmount := 100 }

/-- Summary where the top vendor holds 50.01% of total spend. -/
def sumOver : Summary := { byVendor := [4999, 5001], totalAmount := 10000 }

/-- Witness for C7: an exactly-50% share emits no risk entry; a 50.01% share
does. -/
theorem C7_witness :
    (generateSpendInsights sumHalf emptyReport).risks = [] ∧
    (generateSpendInsights sumOver emptyReport).risks ≠ [] := by
  have h1 := (C7_concentration_strict_boundary sumHalf (by simp [sumHalf])
    (by norm_num [sumHalf])).1
  have h2 := (C7_concentration_strict_boundary sumOver (by simp [sumOver])
    (by norm_num [sumOver])).1
  have e1 : sortDescQ sumHalf.byVendor = [50, 50] := by
    norm_num [sortDescQ, sumHalf, List.mergeSort]
  have e2 : sortDescQ sumOver.byVendor = [5001, 4999] := by
    norm_num [sortDescQ, sumOver, List.mergeSort]
  constructor
  · by_contra hneq
    have := h1.mp hneq
    rw [e1] at this
    norm_num [sumHalf] at this
  · refine h2.mpr ?_
    rw [e2]
    norm_num [sumOver]

/-!  ## filterMap-over-range helpers for the `Object.entries` buckets -/

/-- A guarded `filterMap` over `range n` collapsing to a single entry when
exactly one key produces a value. -/
theorem filterMap_range_single {β : Type} (f : ℕ → Option β) (n w : ℕ) (y : β)
    (hw : w < n) (hfw : f w = some y) (h0 : ∀ k, k < n → k ≠ w → f k = none) :
    (List.range n).filterMap f = [y] := by
  have hn : n = (w + 1) + (n - w - 1) := by omega
  rw [hn, List.range_add, List.filterMap_append, List.range_succ,
    List.filterMap_append]
  have h1 : (List.range w).filterMap f = [] :=
    List.filterMap_eq_nil_iff.mpr (fun k hk =>
      h0 k (by have := List.mem_range.mp hk; omega)
        (by have := List.mem_range.mp hk; omega))
  have h2 : ((List.range (n - w - 1)).map (fun i => (w + 1) + i)).filterMap f = [] := by
    refine List.filterMap_eq_nil_iff.mpr ?_
    intro k hk
    obtain ⟨i, hi, rfl⟩ := List.mem_map.mp hk
    exact h0 _ (by have := List.mem_range.mp hi; omega) (by omega)
  simp [h1, h2, List.filterMap_cons, hfw]

/-- Length of a guarded `filterMap` equals the length of the corresponding
filter. -/
theorem length_filterMap_guard {β : Type} (g : ℕ → β) (p : ℕ → Prop)
    [DecidablePred p] (l : List ℕ) :
    (l.filterMap (fun k => if p k then none else some (g k))).length
      = (l.filter (fun k => !(decide (p k)))).length := by
  induction l with
  | nil => rfl
  | cons a t ih =>
      by_cases h : p a <;>
        simp [List.filterMap_cons, List.filter_cons, h, ih]

/-- A duplicate-free list containing two distinct elements has length ≥ 2. -/
theorem two_le_length_of_two_mem {α : Type} {l : List α} (a b : α)
    (ha : a ∈ l) (hb : b ∈ l) (hab : a ≠ b) : 2 ≤ l.length := by
  match l with
  | [] => simp at ha
  | [x] =>
      simp at ha hb
      exact absurd (ha.trans hb.symm) hab
  | x :: y :: t => simp [List.length_cons]

/-- When every record falls on the same weekday `w` and at least one record
exists, `byDayOfWeek` has exactly the one key `w`. -/
theorem dowEntries_single (docs : List Rec) (w : Fin 7) (hne : docs ≠ [])
    (hall : ∀ d ∈ docs, d.dow = w) :
    dowEntries docs = [⟨w.val, dowTotal docs w.val, dowCount docs w.val⟩] := by
  rw [dowEntries]
  refine filterMap_range_single _ 7 w.val _ w.isLt ?_ ?_
  · rw [if_neg]
    obtain ⟨d, t, rfl⟩ : ∃ d t, docs = d :: t := by
      cases docs with
      | nil => exact absurd rfl hne
      | cons d t => exact ⟨d, t, rfl⟩
    have hd : d.dow = w := hall d (List.mem_cons_self d t)
    simp [dowCount, List.filter_cons, hd]
  · intro k hk hkw
    have hcnt : dowCount docs k = 0 := by
      rw [dowCount, List.length_eq_zero]
      refine List.filter_eq_nil_iff.mpr ?_
      intro d hd
      have hdw := hall d hd
      simp [hdw]
      omega
    rw [if_pos hcnt]

/-- With records on at least two distinct weekdays, `byDayOfWeek` has at
least two keys. -/
theorem two_le_dowEntries_length (docs : List Rec) (d1 d2 : Rec)
    (h1 : d1 ∈ docs) (h2 : d2 ∈ docs) (hne : d1.dow ≠ d2.dow) :
    2 ≤ (dowEntries docs).length := by
  rw [dowEntries, length_filterMap_guard]
  have hmem : ∀ d ∈ docs, (d.dow.val : ℕ) ∈
      (List.range 7).filter (fun k => !(decide (dowCount docs k = 0))) := by
    intro d hd
    refine List.mem_filter.mpr ⟨List.mem_range.mpr d.dow.isLt, ?_⟩
    have : 0 < dowCount docs d.dow.val := by
      rw [dowCount]
      refine List.length_pos.mpr ?_
      intro h0
      have := List.filter_eq_nil_iff.mp h0 d hd
      simp at this
    simp
    omega
  refine two_le_length_of_two_mem d1.dow.val d2.dow.val (hmem d1 h1) (hmem d2 h2) ?_
  intro h
  exact hne (Fin.ext h)

/-- A non-empty record list always yields a non-empty `byMonth`. -/
theorem monthEntries_ne_nil (docs : List Rec) (hne : docs ≠ []) :
    monthEntries docs ≠ [] := by
  obtain ⟨d, t, rfl⟩ : ∃ d t, docs = d :: t := by
    cases docs with
    | nil => exact absurd rfl hne
    | cons d t => exact ⟨d, t, rfl⟩
  rw [monthEntries]
  intro h0
  have := List.filterMap_eq_nil_iff.mp h0 d.month.val
    (List.mem_range.mpr d.month.isLt)
  rw [if_neg] at this
  · exact Option.some_ne_none _ this
  · rw [monthCount, List.filter_cons]
    simp

/-!  ## Behaviour of the cross-cutting steps -/

theorem seasonalStep_of_ne_nil (docs : List Rec) (r : Report) (hne : docs ≠ []) :
    ∃ b, seasonalStep docs r = pushPattern r (seasonalPatternEntry b) := by
  have hmne : monthEntries docs ≠ [] := monthEntries_ne_nil docs hne
  have hlen : 0 < ((monthEntries docs).mergeSort
      (fun a b => decide (b.total ≤ a.total))).length := by
    rw [List.length_mergeSort]
    exact List.length_pos.mpr hmne
  rcases hs : (monthEntries docs).mergeSort (fun a b => decide (b.total ≤ a.total)) with
    _ | ⟨b, t⟩
  · rw [hs] at hlen; simp at hlen
  · exact ⟨b, by rw [seasonalStep, hs]⟩

theorem seasonalStep_anomalies (docs : List Rec) (r : Report) :
    (seasonalStep docs r).anomalies = r.anomalies := by
  rw [seasonalStep]
  split <;> rfl

/-- Uniform weekday: the guard `activeDays.length > 0` passes but
`activeDays[1]` is `undefined`, so reading `activeDays[1][0]` throws. -/
theorem weekdayStep_single_dow (docs : List Rec) (r : Report) (w : Fin 7)
    (hne : docs ≠ []) (hall : ∀ d ∈ docs, d.dow = w) :
    weekdayStep docs r = (r, true) := by
  rw [weekdayStep, dowEntries_single docs w hne hall,
    List.perm_singleton.mp (List.mergeSort_perm _ _)]
  simp [List.take]

/-- At least two weekday buckets: the second most-active weekday exists and
the weekly-pattern entry is pushed. -/
theorem weekdayStep_two_dows (docs : List Rec) (r : Report)
    (h2 : 2 ≤ (dowEntries docs).length) :
    weekdayStep docs r = (pushPattern r weeklyPatternEntry, false) := by
  rw [weekdayStep]
  have hlen : 2 ≤ ((dowEntries docs).mergeSort
      (fun a b => decide (b.count ≤ a.count))).length := by
    rw [List.length_mergeSort]; exact h2
  have h1 : 1 < (((dowEntries docs).mergeSort
      (fun a b => decide (b.count ≤ a.count))).take 2).length := by
    rw [List.length_take]; omega
  have h0 : 0 < (((dowEntries docs).mergeSort
      (fun a b => decide (b.count ≤ a.count))).take 2).length := by omega
  rw [if_pos h0, List.getElem?_eq_getElem h1]

theorem amountStep_patterns (docs : List Rec) (r : Report) :
    (amountStep docs r).patterns = r.patterns := by
  simp only [amountStep]
  split_ifs <;> rfl

theorem amountStep_anomalies (docs : List Rec) (r : Report) :
    (amountStep docs r).anomalies = r.anomalies ++
      (if 5 < docs.length ∧
          0 < (detectAnomalies (docs.map (fun d => d.amount)) (5/2)).length
       then [amountAnomalyEntry (detectAnomalies (docs.map (fun d => d.amount)) (5/2))]
       else []) := by
  simp only [amountStep, List.length_map]
  split_ifs with hlen hanom h3 <;> simp_all [pushAnomaly]

theorem crossCuttingPure_low (docs : List Rec) (r : Report)
    (hle : ¬ 10 < docs.length) :
    crossCuttingPure docs r = (amountStep docs r, false) := by
  rw [crossCuttingPure, if_neg hle]

theorem crossCuttingPure_two_dows (docs : List Rec) (r : Report)
    (hgt : 10 < docs.length) (h2 : 2 ≤ (dowEntries docs).length) :
    crossCuttingPure docs r =
      (amountStep docs (pushPattern (seasonalStep docs r) weeklyPatternEntry), false) := by
  rw [crossCuttingPure, if_pos hgt]
  show (match weekdayStep docs (seasonalStep docs r) with
        | (r2, true) => (r2, true)
        | (r2, false) => (amountStep docs r2, false)) = _
  rw [weekdayStep_two_dows _ _ h2]

theorem crossCuttingPure_single_dow (docs : List Rec) (r : Report) (w : Fin 7)
    (hgt : 10 < docs.length) (hall : ∀ d ∈ docs, d.dow = w) :
    crossCuttingPure docs r = (seasonalStep docs r, true) := by
  have hne : docs ≠ [] := by
    intro h0; rw [h0] at hgt; simp at hgt
  rw [crossCuttingPure, if_pos hgt]
  show (match weekdayStep docs (seasonalStep docs r) with
        | (r2, true) => (r2, true)
        | (r2, false) => (amountStep docs r2, false)) = _
  rw [weekdayStep_single_dow _ _ w hne hall]

theorem filterMap_id_map_some {α : Type} (l : List α) :
    (l.map some).filterMap id = l := by
  rw [List.filterMap_map]; simp

/-!  ## Anomaly entries pushed by the report-type analyzers -/

theorem spendMonthlyStep_anomalies_mem (s : Summary) (r : Report) :
    ∀ e ∈ (spendMonthlyStep s r).anomalies,
      e ∈ r.anomalies ∨ e.etype = "spike_detected" := by
  rw [spendMonthlyStep]
  repeat' split
  all_goals intro e he
  all_goals try simp only [pushTrend, pushAnomaly, pushPrediction,
    apply_ite Report.anomalies] at he
  all_goals try exact Or.inl he
  all_goals try split at he
  all_goals try exact Or.inl he
  all_goals rcases List.mem_append.mp he with h | h
  all_goals try exact Or.inl h
  all_goals rcases List.mem_singleton.mp h with rfl
  all_goals exact Or.inr rfl

theorem generateSpendInsights_anomalies_mem (s : Summary) (r : Report) :
    ∀ e ∈ (generateSpendInsights s r).anomalies,
      e ∈ r.anomalies ∨ e.etype = "spike_detected" := by
  intro e he
  rw [generateSpendInsights] at he
  refine spendMonthlyStep_anomalies_mem s r e ?_
  revert he
  repeat' split
  all_goals intro he
  all_goals try simp only [pushRisk, apply_ite Report.anomalies, ite_self] at he
  all_goals exact he

theorem vendorInsightsPure_anomalies_mem (data : List Rec) (r : Report) :
    ∀ e ∈ (vendorInsightsPure data r).anomalies,
      e ∈ r.anomalies ∨ e.etype = "unusual_vendors" := by
  rw [vendorInsightsPure]
  repeat' split
  all_goals intro e he
  all_goals try simp only [pushTrend, pushAnomaly, pushRisk,
    apply_ite Report.anomalies] at he
  all_goals try exact Or.inl he
  all_goals try split at he
  all_goals try exact Or.inl he
  all_goals rcases List.mem_append.mp he with h | h
  all_goals try exact Or.inl h
  all_goals rcases List.mem_singleton.mp h with rfl
  all_goals exact Or.inr rfl

theorem taxInsightsPure_anomalies_mem (data : List Rec) (s : Summary) (r : Report) :
    ∀ e ∈ (taxInsightsPure data s r).anomalies,
      e ∈ r.anomalies ∨ e.etype = "tax_inconsistency" := by
  rw [taxInsightsPure]
  repeat' split
  all_goals intro e he
  all_goals try simp only [pushTrend, pushAnomaly, pushPrediction,
    apply_ite Report.anomalies] at he
  all_goals try exact Or.inl he
  all_goals try split at he
  all_goals try exact Or.inl he
  all_goals rcases List.mem_append.mp he with h | h
  all_goals try exact Or.inl h
  all_goals rcases List.mem_singleton.mp h with rfl
  all_goals exact Or.inr rfl

theorem approvalInsightsPure_anomalies (data : List Rec) (r : Report) :
    (approvalInsightsPure data r).anomalies = r.anomalies := by
  rw [approvalInsightsPure]
  repeat' split
  all_goals simp [pushTrend, pushRisk, pushPrediction, apply_ite Report.anomalies]

/-- Entries in the anomaly list after any report-type analyzer ran on the
fresh report are spike/vendor/tax entries — never the cross-cutting
`amount_anomalies` tag. -/
theorem dispatch_anomalies_mem (rt : String) (data : List (Option Rec))
    (s : Summary) :
    ∀ e ∈ (dispatch rt data s emptyReport).1.anomalies,
      e.etype = "spike_detected" ∨ e.etype = "unusual_vendors" ∨
      e.etype = "tax_inconsistency" := by
  intro e he
  rw [dispatch] at he
  have hbase : ∀ x, x ∈ emptyReport.anomalies → False := by
    intro x hx; simp [emptyReport] at hx
  repeat' split at he
  · rcases generateSpendInsights_anomalies_mem s emptyReport e he with h | h
    · exact absurd h (by intro hx; exact hbase e hx)
    · exact Or.inl h
  · rw [generateVendorInsights] at he
    split at he
    · exact absurd he (by intro hx; exact hbase e hx)
    · rcases vendorInsightsPure_anomalies_mem _ emptyReport e he with h | h
      · exact absurd h (by intro hx; exact hbase e hx)
      · exact Or.inr (Or.inl h)
  · rw [generateTaxInsights] at he
    split at he
    · exact absurd he (by intro hx; exact hbase e hx)
    · rcases taxInsightsPure_anomalies_mem _ s emptyReport e he with h | h
      · exact absurd h (by intro hx; exact hbase e hx)
      · exact Or.inr (Or.inr h)
  · rw [generateApprovalInsights] at he
    split at he
    · exact absurd he (by intro hx; exact hbase e hx)
    · rw [approvalInsightsPure_anomalies] at he
      exact absurd he (by intro hx; exact hbase e hx)
  · exact absurd he (by intro hx; exact hbase e hx)

/-- With no malformed rows, no report-type analyzer throws. -/
theorem dispatch_no_throw (rt : String) (docs : List Rec) (s : Summary)
    (r : Report) : (dispatch rt (docs.map some) s r).2 = false := by
  have hnn : (docs.map some).any (fun x => x.isNone) = false := by simp
  rw [dispatch]
  repeat' split
  · rfl
  · rw [generateVendorInsights, hnn]; rfl
  · rw [generateTaxInsights, hnn]; rfl
  · rw [generateApprovalInsights, hnn]; rfl
  · rfl

/-!  ## C5: the amount-anomaly step is governed by `> 5`, not `> 10` -/

/-- A record with the given amount (Sunday, January — the temporal fields are
irrelevant below the 10-record pattern guard). -/
def recAmt (q : ℚ) : Rec := { dow := 0, month := 0, amount := q }

/-- Ten well-formed records, amounts nine `0`s and one `10`. -/
def data10 : List (Option Rec) :=
  (List.replicate 9 (0 : ℚ) ++ [10]).map (fun q => some (recAmt q))

/-- C5 fails on the code: with only ten records (≤ 10) the cross-cutting
analyzer still runs `detectAnomalies(amounts, 2.5)` — its guard is
`length > 5`, outside the `length > 10` pattern guard — and here pushes an
amount-anomaly entry (mean 1, stdDev 3, z-score of the `10` record is
`3 > 2.5`). -/
theorem C5_counterexample :
    data10.length = 10 ∧
    (generateCrossCuttingInsights data10 emptyReport).1.anomalies.map Entry.etype
      = ["amount_anomalies"] := by
  constructor
  · decide
  · norm_num [generateCrossCuttingInsights, data10, recAmt, crossCuttingPure,
      amountStep, detectAnomalies, anomalyScan, zScoreExceeds, List.enum,
      List.enumFrom, List.filterMap_cons, pushAnomaly, amountAnomalyEntry,
      emptyReport, List.filterMap_map]

/-- C5 (amended): pattern entries are added exactly when the record count
exceeds 10 (the weekly entry additionally needs a second weekday bucket, cf.
C10), while the amount-anomaly step (threshold 2.5 over the per-document
amounts) runs whenever the record count exceeds 5 — also for counts 6–10. -/
theorem C5_crossCutting_amended :
    (∀ (d : List (Option Rec)) (r : Report), d.length ≤ 10 →
        (generateCrossCuttingInsights d r).1.patterns = r.patterns) ∧
    (∀ (docs : List Rec) (r : Report), docs.length ≤ 10 →
        (crossCuttingPure docs r).1.anomalies = r.anomalies ++
          (if 5 < docs.length ∧
              0 < (detectAnomalies (docs.map (fun d => d.amount)) (5/2)).length
           then [amountAnomalyEntry (detectAnomalies (docs.map (fun d => d.amount)) (5/2))]
           else [])) ∧
    (∀ (docs : List Rec) (r : Report), 10 < docs.length →
        (∃ d1 ∈ docs, ∃ d2 ∈ docs, d1.dow ≠ d2.dow) →
        ∃ b, (crossCuttingPure docs r).1.patterns
            = r.patterns ++ [seasonalPatternEntry b, weeklyPatternEntry] ∧
          (crossCuttingPure docs r).1.anomalies = r.anomalies ++
            (if 0 < (detectAnomalies (docs.map (fun d => d.amount)) (5/2)).length
             then [amountAnomalyEntry (detectAnomalies (docs.map (fun d => d.amount)) (5/2))]
             else []) ∧
          (crossCuttingPure docs r).2 = false) := by
  refine ⟨?_, ?_, ?_⟩
  · intro d r hle
    rw [generateCrossCuttingInsights]
    split
    · rfl
    · have hlen : (d.filterMap id).length ≤ 10 :=
        le_trans (List.length_filterMap_le id d) hle
      rw [crossCuttingPure_low _ _ (by omega)]
      exact amountStep_patterns _ _
  · intro docs r hle
    rw [crossCuttingPure_low _ _ (by omega)]
    exact amountStep_anomalies docs r
  · rintro docs r hgt ⟨d1, h1, d2, h2, hne⟩
    have h2d : 2 ≤ (dowEntries docs).length :=
      two_le_dowEntries_length docs d1 d2 h1 h2 hne
    have hdne : docs ≠ [] := by
      intro h0; rw [h0] at hgt; simp at hgt
    obtain ⟨b, hb⟩ := seasonalStep_of_ne_nil docs r hdne
    rw [crossCuttingPure_two_dows docs r hgt h2d]
    refine ⟨b, ?_, ?_, rfl⟩
    · rw [amountStep_patterns, hb]
      simp [pushPattern]
    · rw [amountStep_anomalies, hb]
      have h5 : 5 < docs.length := by omega
      simp [pushPattern, h5]

/-- The ten records of `data10`, without the `Option` wrapper. -/
def docs10 : List Rec := (List.replicate 9 (0 : ℚ) ++ [10]).map recAmt

/-- Eleven records spanning two different weekdays. -/
def docsMix : List Rec :=
  List.replicate 10 (recAmt 0) ++ [{ dow := 1, month := 0, amount := 0 }]

/-- Witness for C5 (amended), instantiating each quantified conjunct. -/
theorem C5_witness :
    (generateCrossCuttingInsights data10 emptyReport).1.patterns
      = emptyReport.patterns ∧
    (crossCuttingPure docs10 emptyReport).1.anomalies = emptyReport.anomalies ++
      (if 5 < docs10.length ∧
          0 < (detectAnomalies (docs10.map (fun d => d.amount)) (5/2)).length
       then [amountAnomalyEntry (detectAnomalies (docs10.map (fun d => d.amount)) (5/2))]
       else []) ∧
    (∃ b, (crossCuttingPure docsMix emptyReport).1.patterns
        = emptyReport.patterns ++ [seasonalPatternEntry b, weeklyPatternEntry] ∧
      (crossCuttingPure docsMix emptyReport).1.anomalies = emptyReport.anomalies ++
        (if 0 < (detectAnomalies (docsMix.map (fun d => d.amount)) (5/2)).length
         then [amountAnomalyEntry (detectAnomalies (docsMix.map (fun d => d.amount)) (5/2))]
         else []) ∧
      (crossCuttingPure docsMix emptyReport).2 = false) :=
  ⟨C5_crossCutting_amended.1 data10 emptyReport (by decide),
   C5_crossCutting_amended.2.1 docs10 emptyReport (by decide),
   C5_crossCutting_amended.2.2 docsMix emptyReport (by decide)
     ⟨recAmt 0, by decide, { dow := 1, month := 0, amount := 0 }, by decide, by decide⟩⟩

/-!  ## C10: a single weekday bucket crashes the weekly-pattern step -/

/-- C10: with more than 10 records all on the same weekday, the weekly
pattern step reads `activeDays[1][0]` of a one-element list and throws; the
exception is swallowed at the assembler, so the returned report has the
busiest-month seasonal entry but no weekly-pattern entry and no
amount-anomaly entry, for every report type. -/
theorem C10_uniform_weekday_drops_entries (rt : String) (docs : List Rec)
    (s : Summary) (w : Fin 7) (hlen : 10 < docs.length)
    (hall : ∀ d ∈ docs, d.dow = w) :
    ∃ rep b, generateRealInsights rt (docs.map some) s = Except.ok rep ∧
      runAnalysis rt (docs.map some) s = Except.error rep ∧
      rep.patterns = [seasonalPatternEntry b] ∧
      (∀ e ∈ rep.anomalies, e.etype ≠ "amount_anomalies") := by
  have hne : docs ≠ [] := by
    intro h0; rw [h0] at hlen; simp at hlen
  have hnothrow : (dispatch rt (docs.map some) s emptyReport).2 = false :=
    dispatch_no_throw rt docs s emptyReport
  have hcc : generateCrossCuttingInsights (docs.map some)
      (dispatch rt (docs.map some) s emptyReport).1
      = (seasonalStep docs (dispatch rt (docs.map some) s emptyReport).1, true) := by
    rw [generateCrossCuttingInsights]
    have h1 : ¬ ((docs.map some).any (fun x => x.isNone) = true) := by simp
    rw [if_neg h1, filterMap_id_map_some]
    exact crossCuttingPure_single_dow docs _ w hlen hall
  have hrun : runAnalysis rt (docs.map some) s
      = Except.error (seasonalStep docs (dispatch rt (docs.map some) s emptyReport).1) := by
    rw [runAnalysis]
    show (if (dispatch rt (docs.map some) s emptyReport).2 = true
        then Except.error (dispatch rt (docs.map some) s emptyReport).1
        else if (generateCrossCuttingInsights (docs.map some)
            (dispatch rt (docs.map some) s emptyReport).1).2 = true
          then Except.error (generateCrossCuttingInsights (docs.map some)
            (dispatch rt (docs.map some) s emptyReport).1).1
          else Except.ok (generateCrossCuttingInsights (docs.map some)
            (dispatch rt (docs.map some) s emptyReport).1).1) = _
    rw [hnothrow, hcc]
    simp
  obtain ⟨b, hb⟩ := seasonalStep_of_ne_nil docs
    (dispatch rt (docs.map some) s emptyReport).1 hne
  refine ⟨_, b, ?_, hrun, ?_, ?_⟩
  · rw [generateRealInsights, hrun]
  · rw [hb]
    show ((dispatch rt (docs.map some) s emptyReport).1.patterns ++ _) = _
    rw [dispatch_patterns]
    simp [emptyReport]
  · intro e he
    rw [hb] at he
    have he2 : e ∈ (dispatch rt (docs.map some) s emptyReport).1.anomalies := he
    rcases dispatch_anomalies_mem rt (docs.map some) s e he2 with h | h | h <;>
      simp [h]

/-- Eleven identical Sunday records. -/
def docs11 : List Rec := List.replicate 11 (recAmt 0)

/-- Witness for C10 at eleven same-weekday records and the spend report
type. -/
theorem C10_witness :
    ∃ rep b, generateRealInsights "spend-summary" (docs11.map some) sumEmpty
        = Except.ok rep ∧
      runAnalysis "spend-summary" (docs11.map some) sumEmpty = Except.error rep ∧
      rep.patterns = [seasonalPatternEntry b] ∧
      (∀ e ∈ rep.anomalies, e.etype ≠ "amount_anomalies") :=
  C10_uniform_weekday_drops_entries "spend-summary" docs11 sumEmpty 0
    (by decide) (by decide)

/-!  ## C8: finiteness of every numeric entry field -/

/-- Every numeric payload of the entry is a finite number: nothing in
`numData` and no `value` is `NaN` or `±Infinity`. -/
def entryFinite (e : Entry) : Prop :=
  (∀ v ∈ e.numData, ∃ q, v = JSNum.fin q) ∧
  (∀ v, e.value = some v → ∃ q, v = JSNum.fin q)

/-- Every entry in every category of the report satisfies `entryFinite`. -/
def reportFinite (r : Report) : Prop :=
  (∀ e ∈ r.trends, entryFinite e) ∧ (∀ e ∈ r.anomalies, entryFinite e) ∧
  (∀ e ∈ r.predictions, entryFinite e) ∧ (∀ e ∈ r.recommendations, entryFinite e) ∧
  (∀ e ∈ r.patterns, entryFinite e) ∧ (∀ e ∈ r.risks, entryFinite e)

theorem forall_mem_append_singleton {α : Type} {P : α → Prop} {l : List α}
    {x : α} (hl : ∀ a ∈ l, P a) (hx : P x) : ∀ a ∈ l ++ [x], P a := by
  intro a ha
  rcases List.mem_append.mp ha with h | h
  · exact hl a h
  · rcases List.mem_singleton.mp h with rfl
    exact hx

theorem reportFinite_pushTrend {r : Report} {e : Entry} (hr : reportFinite r)
    (he : entryFinite e) : reportFinite (pushTrend r e) :=
  ⟨forall_mem_append_singleton hr.1 he, hr.2.1, hr.2.2.1, hr.2.2.2.1,
   hr.2.2.2.2.1, hr.2.2.2.2.2⟩

theorem reportFinite_pushAnomaly {r : Report} {e : Entry} (hr : reportFinite r)
    (he : entryFinite e) : reportFinite (pushAnomaly r e) :=
  ⟨hr.1, forall_mem_append_singleton hr.2.1 he, hr.2.2.1, hr.2.2.2.1,
   hr.2.2.2.2.1, hr.2.2.2.2.2⟩

theorem reportFinite_pushPrediction {r : Report} {e : Entry} (hr : reportFinite r)
    (he : entryFinite e) : reportFinite (pushPrediction r e) :=
  ⟨hr.1, hr.2.1, forall_mem_append_singleton hr.2.2.1 he, hr.2.2.2.1,
   hr.2.2.2.2.1, hr.2.2.2.2.2⟩

theorem reportFinite_pushPattern {r : Report} {e : Entry} (hr : reportFinite r)
    (he : entryFinite e) : reportFinite (pushPattern r e) :=
  ⟨hr.1, hr.2.1, hr.2.2.1, hr.2.2.2.1,
   forall_mem_append_singleton hr.2.2.2.2.1 he, hr.2.2.2.2.2⟩

theorem reportFinite_pushRisk {r : Report} {e : Entry} (hr : reportFinite r)
    (he : entryFinite e) : reportFinite (pushRisk r e) :=
  ⟨hr.1, hr.2.1, hr.2.2.1, hr.2.2.2.1, hr.2.2.2.2.1,
   forall_mem_append_singleton hr.2.2.2.2.2 he⟩

theorem reportFinite_empty : reportFinite emptyReport := by
  refine ⟨?_, ?_, ?_, ?_, ?_, ?_⟩ <;> intro e he <;> simp [emptyReport] at he

theorem spendMonthlyStep_finite (s : Summary) {r : Report} (hr : reportFinite r) :
    reportFinite (spendMonthlyStep s r) := by
  simp only [spendMonthlyStep]
  repeat'
    first
      | exact hr
      | apply reportFinite_pushTrend
      | apply reportFinite_pushAnomaly
      | apply reportFinite_pushPrediction
      | split
  all_goals simp [entryFinite]

theorem generateSpendInsights_finite (s : Summary) {r : Report}
    (hr : reportFinite r) : reportFinite (generateSpendInsights s r) := by
  simp only [generateSpendInsights]
  repeat'
    first
      | exact spendMonthlyStep_finite s hr
      | apply reportFinite_pushRisk
      | split
  all_goals simp [entryFinite]

theorem vendorInsightsPure_finite (data : List Rec) {r : Report}
    (hr : reportFinite r) : reportFinite (vendorInsightsPure data r) := by
  simp only [vendorInsightsPure]
  repeat'
    first
      | exact hr
      | apply reportFinite_pushTrend
      | apply reportFinite_pushAnomaly
      | apply reportFinite_pushRisk
      | split
  all_goals simp [entryFinite]

theorem taxInsightsPure_finite (data : List Rec) (s : Summary) {r : Report}
    (hr : reportFinite r) : reportFinite (taxInsightsPure data s r) := by
  simp only [taxInsightsPure]
  repeat'
    first
      | exact hr
      | apply reportFinite_pushTrend
      | apply reportFinite_pushAnomaly
      | apply reportFinite_pushPrediction
      | split
  all_goals simp [entryFinite]

theorem approvalInsightsPure_finite (data : List Rec) {r : Report}
    (hr : reportFinite r) : reportFinite (approvalInsightsPure data r) := by
  simp only [approvalInsightsPure]
  repeat'
    first
      | exact hr
      | apply reportFinite_pushTrend
      | apply reportFinite_pushRisk
      | apply reportFinite_pushPrediction
      | split
  all_goals simp [entryFinite]

theorem dispatch_finite (rt : String) (data : List (Option Rec)) (s : Summary)
    {r : Report} (hr : reportFinite r) : reportFinite (dispatch rt data s r).1 := by
  rw [dispatch]
  repeat' split
  · exact generateSpendInsights_finite s hr
  · rw [generateVendorInsights]
    split
    · exact hr
    · exact vendorInsightsPure_finite _ hr
  · rw [generateTaxInsights]
    split
    · exact hr
    · exact taxInsightsPure_finite _ s hr
  · rw [generateApprovalInsights]
    split
    · exact hr
    · exact approvalInsightsPure_finite _ hr
  · exact hr

theorem seasonalStep_finite (docs : List Rec) {r : Report} (hr : reportFinite r) :
    reportFinite (seasonalStep docs r) := by
  rw [seasonalStep]
  split
  · exact hr
  · exact reportFinite_pushPattern hr (by simp [entryFinite, seasonalPatternEntry])

theorem weekdayStep_finite (docs : List Rec) {r : Report} (hr : reportFinite r) :
    reportFinite (weekdayStep docs r).1 := by
  rw [weekdayStep]
  repeat' split
  · exact hr
  · exact reportFinite_pushPattern hr (by simp [entryFinite, weeklyPatternEntry])
  · exact hr

theorem amountStep_finite (docs : List Rec) {r : Report} (hr : reportFinite r) :
    reportFinite (amountStep docs r) := by
  simp only [amountStep]
  repeat'
    first
      | exact hr
      | apply reportFinite_pushAnomaly
      | split
  all_goals simp [entryFinite, amountAnomalyEntry]

theorem crossCuttingPure_finite (docs : List Rec) {r : Report}
    (hr : reportFinite r) : reportFinite (crossCuttingPure docs r).1 := by
  rw [crossCuttingPure]
  split
  · show reportFinite (match weekdayStep docs (seasonalStep docs r) with
      | (r2, true) => (r2, true)
      | (r2, false) => (amountStep docs r2, false)).1
    rcases hw : weekdayStep docs (seasonalStep docs r) with ⟨r2, b⟩
    have hr2 : reportFinite r2 := by
      have hwf := weekdayStep_finite docs (seasonalStep_finite docs hr)
      rw [hw] at hwf
      exact hwf
    cases b
    · exact amountStep_finite docs hr2
    · exact hr2
  · exact amountStep_finite docs hr

theorem generateCrossCuttingInsights_finite (data : List (Option Rec))
    {r : Report} (hr : reportFinite r) :
    reportFinite (generateCrossCuttingInsights data r).1 := by
  rw [generateCrossCuttingInsights]
  split
  · exact hr
  · exact crossCuttingPure_finite _ hr

/-- C8: for finite record amounts/VATs and finite summary totals (built into
the ℚ-typed data model), no numeric field of any entry of the returned
report — forecast values, growth percentages, rates, pattern totals, anomaly
amounts — is `NaN` or `Infinity`, whatever the report type and however
degenerate the statistics. -/
theorem C8_numeric_fields_finite (rt : String) (data : List (Option Rec))
    (s : Summary) (rep : Report)
    (h : generateRealInsights rt data s = Except.ok rep) : reportFinite rep := by
  have hdisp : reportFinite (dispatch rt data s emptyReport).1 :=
    dispatch_finite rt data s reportFinite_empty
  have hcc : reportFinite (generateCrossCuttingInsights data
      (dispatch rt data s emptyReport).1).1 :=
    generateCrossCuttingInsights_finite data hdisp
  cases hrun : runAnalysis rt data s with
  | ok r0 =>
      rw [generateRealInsights, hrun] at h
      cases h
      rw [runAnalysis] at hrun
      split_ifs at hrun <;> cases hrun
      exact hcc
  | error r0 =>
      rw [generateRealInsights, hrun] at h
      cases h
      rw [runAnalysis] at hrun
      split_ifs at hrun <;> cases hrun
      · exact hdisp
      · exact hcc

/-- Witness for C8 at the concrete spend-summary call on no records and an
empty summary. -/
theorem C8_witness :
    ∃ rep, generateRealInsights "spend-summary" [] sumEmpty = Except.ok rep ∧
      reportFinite rep := by
  cases h : runAnalysis "spend-summary" [] sumEmpty with
  | ok rep =>
      exact ⟨rep, by rw [generateRealInsights, h],
        C8_numeric_fields_finite "spend-summary" [] sumEmpty rep
          (by rw [generateRealInsights, h])⟩
  | error rep =>
      exact ⟨rep, by rw [generateRealInsights, h],
        C8_numeric_fields_finite "spend-summary" [] sumEmpty rep
          (by rw [generateRealInsights, h])⟩
